import Mathlib

/-
Verification of the FridgeTrack front-end API clients and toast system.

The development shallowly embeds the relevant TypeScript modules:

* `src/client/src/api/endpoints/recipes.ts` — the retry helper `withRetry`
  (capped, jittered exponential backoff, selective retry on HTTP 429/503)
  and the public operations `generate` and `getByIngredients`;
* the scan API module (`validateImageFile`, `uploadImage`);
* `src/client/src/components/ui/Toast.tsx` — the toast provider
  (`add`, `dismiss`, auto-dismiss timers) as a discrete-event system.

Asynchrony is modelled by explicit oracles: the wrapped operation of
`withRetry` becomes a function from the invocation index to its outcome,
`Math.random()` becomes a jitter oracle `rand : Nat → ℚ`, and the HTTP layer
becomes an oracle giving the response of each issued request.  Times are
natural numbers (milliseconds).
-/

namespace FridgeTrack

/-- Shape of one backend recipe, modelled from its use in `mapRecipe`
(`src/client/src/api/endpoints/recipes.ts`): the client reads the fields
`name`, `prep_time` (a string), `ingredients`, `instructions`, `items_used`. -/
structure BackendRecipe where
  name : String
  prep_time : String
  ingredients : List String
  instructions : List String
  items_used : List String
deriving DecidableEq

/-- Shape of the backend response to `POST /api/get-recipes`, modelled from its
use in `generate`: an optional `recipes` array and optional `error` / `message`
strings (the backend may return 200 with an `error` field). -/
structure BackendRecipeResponse where
  recipes : Option (List BackendRecipe)
  error : Option String
  message : Option String
deriving DecidableEq

/-- Payload attached to an `ApiError` (`data` in the TypeScript class).  The
client either leaves it undefined, forwards the previous error's data, or
stores the backend response object. -/
inductive JsData where
  | undefined : JsData
  | recipeResp : BackendRecipeResponse → JsData
deriving DecidableEq

/-- Error type of the HTTP client module (`../client`, not included in this
source set), modelled from its usage: `new ApiError(status, message, data?)`
carries an HTTP status, a message and an optional payload. -/
structure ApiError where
  status : Nat
  message : String
  data : JsData
deriving DecidableEq

/-- A thrown JavaScript value: either an `ApiError` or any other value.  The
type guard `isApiError` from the client module distinguishes the two. -/
inductive ErrVal where
  | api : ApiError → ErrVal
  | other : String → ErrVal
deriving DecidableEq

/-- Model of the `isApiError` type guard exported by the client module. -/
def isApiError : ErrVal → Bool
  | .api _ => true
  | .other _ => false

/-- Status of a thrown value; only ever read under an `isApiError` guard, so
the value on non-`ApiError`s is irrelevant (JavaScript would give
`undefined`). -/
def errStatus : ErrVal → Nat
  | .api a => a.status
  | .other _ => 0

/-- Data payload of a thrown value, read only under an `isApiError` guard. -/
def errData : ErrVal → JsData
  | .api a => a.data
  | .other _ => .undefined

-- ---- Retry helper constants (recipes.ts) ----

/-- Maximum number of retries after the first attempt (`MAX_RETRIES`). -/
def MAX_RETRIES : Nat := 3

/-- Base backoff delay in milliseconds (`BASE_DELAY_MS`). -/
def BASE_DELAY_MS : Nat := 1000

/-- The retry test of `withRetry`:
`isApiError(error) && (error.status === 429 || error.status === 503)`. -/
def isRetryable (e : ErrVal) : Bool :=
  isApiError e && (errStatus e == 429 || errStatus e == 503)

/-- Observable outcome of a `withRetry` run: the returned value or thrown
error, the number of invocations of the wrapped operation, and the list of
backoff delays slept between attempts (in milliseconds, as rationals since
the jitter is fractional). -/
structure RetryRun (α : Type) where
  result : Except ErrVal α
  calls : Nat
  delays : List ℚ

/-- Body of `withRetry`'s `for (let attempt = 0; attempt <= MAX_RETRIES; ...)`
loop, recursing over the list of remaining attempt indices.  `fn k` is the
outcome of the k-th invocation of the wrapped operation and `rand k` the
`Math.random()` sample drawn after a failed attempt `k`.  The `[]` case is the
`throw lastError` after the loop (unreachable when started from attempt 0,
where the loop always returns or throws at `attempt === MAX_RETRIES`). -/
def retryLoop {α : Type} (fn : Nat → Except ErrVal α) (rand : Nat → ℚ) :
    List Nat → Option ErrVal → RetryRun α
  | [], lastError => ⟨.error (lastError.getD (.other "undefined")), 0, []⟩
  | attempt :: rest, _ =>
    match fn attempt with
    | .ok v => ⟨.ok v, 1, []⟩
    | .error e =>
      if !(isRetryable e) || attempt == MAX_RETRIES then
        ⟨.error e, 1, []⟩
      else
        let d : ℚ := (BASE_DELAY_MS : ℚ) * 2 ^ attempt + rand attempt * 500
        let r := retryLoop fn rand rest (some e)
        ⟨r.result, r.calls + 1, d :: r.delays⟩

/-- Model of `withRetry`: run the loop over attempts `0, …, MAX_RETRIES` with
`lastError` initially undefined. -/
def withRetry {α : Type} (fn : Nat → Except ErrVal α) (rand : Nat → ℚ) :
    RetryRun α :=
  retryLoop fn rand (List.range (MAX_RETRIES + 1)) none

-- ---- Recipe mapping (recipes.ts) ----

/-- One frontend ingredient as built by `mapRecipe`. -/
structure Ingredient where
  name : String
  amount : Nat
  in_inventory : Bool
deriving DecidableEq

/-- Frontend `Recipe` type, restricted to the fields `mapRecipe` populates. -/
structure Recipe where
  id : String
  name : String
  prep_time_minutes : Int
  ingredients : List Ingredient
  instructions : List String
  uses_expiring_items : List String
deriving DecidableEq

/-- Longest leading digit prefix of a character list, if nonempty. -/
def leadingNat (cs : List Char) : Option Nat :=
  let ds := cs.takeWhile (fun c => c.isDigit)
  if ds.isEmpty then none
  else some (ds.foldl (fun acc c => acc * 10 + (c.toNat - 48)) 0)

/-- Model of JavaScript `parseInt(s, 10)`: skip leading whitespace, accept an
optional sign, then read the longest digit prefix; `none` stands for `NaN`. -/
def jsParseInt (s : String) : Option Int :=
  match s.data.dropWhile (fun c => c.isWhitespace) with
  | '-' :: rest => (leadingNat rest).map (fun n => -(n : Int))
  | '+' :: rest => (leadingNat rest).map (fun n => (n : Int))
  | rest => (leadingNat rest).map (fun n => (n : Int))

/-- Model of `mapRecipe`: map the backend recipe shape at a given array index
to the frontend `Recipe` type (`parseInt(raw.prep_time, 10) || 0` becomes
`(jsParseInt raw.prep_time).getD 0`, identifying `NaN` with the default). -/
def mapRecipe (raw : BackendRecipe) (index : Nat) : Recipe :=
  { id := "generated-" ++ toString index
    name := raw.name
    prep_time_minutes := (jsParseInt raw.prep_time).getD 0
    ingredients := raw.ingredients.map (fun n => ⟨n, 1, true⟩)
    instructions := raw.instructions
    uses_expiring_items := raw.items_used }

-- ---- generate (recipes.ts) ----

/-- The `(response.recipes ?? []).map(mapRecipe)` step of `generate`
(JavaScript `map` passes the element and its index). -/
def responseRecipes (response : BackendRecipeResponse) : List Recipe :=
  (response.recipes.getD []).mapIdx (fun i raw => mapRecipe raw i)

/-- One invocation of the operation `generate` wraps in `withRetry`: issue
`POST /api/get-recipes` (the response of the k-th request is `net k`), then
throw `new ApiError(200, response.message || response.error, response)` when
the 200 response carries a truthy `error` field, else return the mapped
recipes.  JavaScript truthiness makes an empty `error` string fall through. -/
def generateAttempt (net : Nat → Except ErrVal BackendRecipeResponse)
    (k : Nat) : Except ErrVal (List Recipe) :=
  match net k with
  | .error e => .error e
  | .ok response =>
    match response.error with
    | some err =>
      if err = "" then .ok (responseRecipes response)
      else
        .error (.api
          { status := 200
            message := match response.message with
              | some m => if m = "" then err else m
              | none => err
            data := .recipeResp response })
    | none => .ok (responseRecipes response)

/-- The `withRetry` run performed by `generate items`.  Each invocation of the
wrapped operation issues exactly one `POST /api/get-recipes` with body
`{ items }`, so the run's `calls` field is the number of HTTP requests. -/
def generateRun (items : List String)
    (net : Nat → Except ErrVal BackendRecipeResponse) (rand : Nat → ℚ) :
    RetryRun (List Recipe) :=
  let _ := items
  withRetry (generateAttempt net) rand

/-- Model of `generate`: run the retried operation, then apply the public
catch block — a final 429 is rethrown with a friendly message, a final 404
yields the empty array, everything else is rethrown unchanged. -/
def generate (items : List String)
    (net : Nat → Except ErrVal BackendRecipeResponse) (rand : Nat → ℚ) :
    Except ErrVal (List Recipe) :=
  match (generateRun items net rand).result with
  | .ok v => .ok v
  | .error e =>
    match e with
    | .api a =>
      if a.status == 429 then
        .error (.api
          { status := 429
            message :=
              "Recipe generation is rate-limited. Please wait a moment and try again."
            data := a.data })
      else if a.status == 404 then .ok []
      else .error (.api a)
    | .other s => .error (.other s)

/-- Number of HTTP requests `generate items` issues. -/
def generateRequests (items : List String)
    (net : Nat → Except ErrVal BackendRecipeResponse) (rand : Nat → ℚ) : Nat :=
  (generateRun items net rand).calls

-- ---- getByIngredients (recipes.ts) ----

/-- Observable behaviour of one `getByIngredients` call: its result, the
number of HTTP requests it issues, and the console warnings it logs. -/
structure GetByIngredientsRun where
  result : Except ErrVal (List Recipe)
  requests : Nat
  warnings : List String

/-- Model of `getByIngredients`: the backend search endpoint is not
implemented, so the function logs a warning, ignores its argument
(`void ingredients`) and returns the empty array without any request. -/
def getByIngredients (ingredients : List String) : GetByIngredientsRun :=
  let _ := ingredients
  { result := .ok []
    requests := 0
    warnings :=
      ["[recipesApi.getByIngredients] Endpoint not yet implemented on backend: POST /api/recipes/search"] }

-- ---- Scan API (validateImageFile / uploadImage) ----

/-- Maximum accepted upload size in bytes (`MAX_FILE_SIZE = 10 * 1024 * 1024`). -/
def MAX_FILE_SIZE : Nat := 10 * 1024 * 1024

/-- The accepted MIME types (`ALLOWED_TYPES`). -/
def ALLOWED_TYPES : List String :=
  ["image/jpeg", "image/png", "image/webp", "image/heic", "image/heif"]

/-- The two properties of a browser `File` the scan client reads: its MIME
type and its size in bytes. -/
structure JsFile where
  type : String
  size : Nat
deriving DecidableEq

/-- Human-readable size in MB with one decimal, modelling
`(file.size / (1024 * 1024)).toFixed(1)` with rounded natural arithmetic
(the floating-point formatting itself is irrelevant to the claims). -/
def sizeMBString (size : Nat) : String :=
  let tenths := (size * 10 + 524288) / 1048576
  toString (tenths / 10) ++ "." ++ toString (tenths % 10)

/-- Model of `validateImageFile`: reject a MIME type outside `ALLOWED_TYPES`
with a 422 `ApiError`, then a size above `MAX_FILE_SIZE` with a 413. -/
def validateImageFile (file : JsFile) : Except ApiError Unit :=
  if !(ALLOWED_TYPES.contains file.type) then
    .error
      { status := 422
        message :=
          "Invalid file format \"" ++ file.type ++ "\". Accepted: JPEG, PNG, WebP, HEIC."
        data := .undefined }
  else if file.size > MAX_FILE_SIZE then
    .error
      { status := 413
        message :=
          "File is too large (" ++ sizeMBString file.size ++ " MB). Maximum size is 10 MB."
        data := .undefined }
  else .ok ()

/-- Shape of the backend response to `POST /api/scan`; its internals are
never inspected by the scan client, so a single abstract field suffices. -/
structure ScanResponse where
  items : List String
deriving DecidableEq

/-- Model of `uploadImage`: validate the file (a validation error propagates
with no request issued), then issue exactly one upload request whose outcome
is the oracle `net`; backend 413/422/500 errors are rethrown with friendly
messages, everything else unchanged.  The second component counts the HTTP
requests issued. -/
def uploadImage (file : JsFile) (net : Except ErrVal ScanResponse) :
    Except ErrVal ScanResponse × Nat :=
  match validateImageFile file with
  | .error e => (.error (.api e), 0)
  | .ok _ =>
    match net with
    | .ok r => (.ok r, 1)
    | .error e =>
      (match e with
       | .api a =>
         if a.status == 413 then
           .error (.api
             { status := 413
               message := "File is too large. Please use a smaller image."
               data := a.data })
         else if a.status == 422 then
           .error (.api
             { status := 422
               message := "Image could not be processed. Try a different photo."
               data := a.data })
         else if a.status == 500 then
           .error (.api
             { status := 500
               message := "Detection failed. Please try again."
               data := a.data })
         else .error (.api a)
       | .other s => .error (.other s), 1)

-- ---- Toast system (Toast.tsx) ----

/-- Exit-animation length in milliseconds (`EXIT_MS`). -/
def EXIT_MS : Nat := 200

/-- Default toast duration in milliseconds (`DEFAULT_DURATION`). -/
def DEFAULT_DURATION : Nat := 5000

/-- The four toast variants. -/
inductive ToastVariant where
  | success : ToastVariant
  | error : ToastVariant
  | warning : ToastVariant
  | info : ToastVariant
deriving DecidableEq

/-- One entry of the provider's `toasts` state (`ToastItem`). -/
structure ToastItem where
  id : Nat
  variant : ToastVariant
  message : String
  duration : Nat
  exiting : Bool
deriving DecidableEq

/-- State of the toast provider: the `toasts` list, the pending auto-dismiss
timers (`timersRef`, toast id paired with absolute fire time), the pending
removal timeouts scheduled by `dismiss` (id paired with absolute fire time),
and the module-level id counter `nextId`. -/
structure ToastState where
  toasts : List ToastItem
  timers : List (Nat × Nat)
  removals : List (Nat × Nat)
  nextId : Nat
deriving DecidableEq

/-- The provider state before any toast is created. -/
def toastInit : ToastState :=
  { toasts := [], timers := [], removals := [], nextId := 0 }

/-- Model of `dismiss(id)` executing at absolute time `now`: mark the toast
as exiting, schedule its removal `EXIT_MS` later, and clear the pending
auto-dismiss timer of `id` (`clearTimeout` + map delete). -/
def dismissAt (now id : Nat) (s : ToastState) : ToastState :=
  { toasts :=
      s.toasts.map (fun t => if t.id == id then { t with exiting := true } else t)
    timers := s.timers.filter (fun p => p.1 != id)
    removals := (id, now + EXIT_MS) :: s.removals
    nextId := s.nextId }

/-- Model of `add(variant, message, duration = DEFAULT_DURATION)` executing at
absolute time `now`: mint the id `++nextId`, append the toast, and schedule
its auto-dismiss timer `duration` milliseconds later.  A `none` duration is
an omitted argument, filled by the default. -/
def addAt (now : Nat) (variant : ToastVariant) (message : String)
    (dur : Option Nat) (s : ToastState) : ToastState :=
  let duration := dur.getD DEFAULT_DURATION
  let id := s.nextId + 1
  { toasts := s.toasts ++ [⟨id, variant, message, duration, false⟩]
    timers := (id, now + duration) :: s.timers
    removals := s.removals
    nextId := id }

/-- The runtime fires the auto-dismiss timeout of toast `id` at time `now`:
this runs `dismiss(id)` exactly when such a timer is still pending (a cleared
timeout never fires). -/
def fireTimerAt (now id : Nat) (s : ToastState) : ToastState :=
  if (id, now) ∈ s.timers then dismissAt now id s else s

/-- The runtime fires the removal timeout scheduled by `dismiss`: the toast is
filtered out of the list and that timeout is spent. -/
def fireRemovalAt (now id : Nat) (s : ToastState) : ToastState :=
  if (id, now) ∈ s.removals then
    { s with
      toasts := s.toasts.filter (fun t => t.id != id)
      removals := s.removals.erase (id, now) }
  else s

/-- `toast.success` of the `ToastAPI`. -/
def toastSuccess (now : Nat) (message : String) (dur : Option Nat)
    (s : ToastState) : ToastState :=
  addAt now .success message dur s

/-- `toast.error` of the `ToastAPI`. -/
def toastError (now : Nat) (message : String) (dur : Option Nat)
    (s : ToastState) : ToastState :=
  addAt now .error message dur s

/-- `toast.warning` of the `ToastAPI`. -/
def toastWarning (now : Nat) (message : String) (dur : Option Nat)
    (s : ToastState) : ToastState :=
  addAt now .warning message dur s

/-- `toast.info` of the `ToastAPI`. -/
def toastInfo (now : Nat) (message : String) (dur : Option Nat)
    (s : ToastState) : ToastState :=
  addAt now .info message dur s

/-- An event acting on the provider state: one of the four `ToastAPI`
creation calls, a manual `dismiss`, or the runtime firing a pending
auto-dismiss or removal timeout. -/
inductive ToastOp where
  | success (now : Nat) (message : String) (dur : Option Nat) : ToastOp
  | error (now : Nat) (message : String) (dur : Option Nat) : ToastOp
  | warning (now : Nat) (message : String) (dur : Option Nat) : ToastOp
  | info (now : Nat) (message : String) (dur : Option Nat) : ToastOp
  | dismiss (now id : Nat) : ToastOp
  | timerFires (now id : Nat) : ToastOp
  | removalFires (now id : Nat) : ToastOp
deriving DecidableEq

/-- Apply one event to the provider state. -/
def applyOp : ToastOp → ToastState → ToastState
  | .success now msg dur => toastSuccess now msg dur
  | .error now msg dur => toastError now msg dur
  | .warning now msg dur => toastWarning now msg dur
  | .info now msg dur => toastInfo now msg dur
  | .dismiss now id => dismissAt now id
  | .timerFires now id => fireTimerAt now id
  | .removalFires now id => fireRemovalAt now id

/-- Run a sequence of events from a state. -/
def runOps (ops : List ToastOp) (s : ToastState) : ToastState :=
  ops.foldl (fun s op => applyOp op s) s

/-- Whether an event dismisses toast `id` (manually, or by firing its
auto-dismiss timer). -/
def opDismisses (id : Nat) : ToastOp → Bool
  | .dismiss _ i => i == id
  | .timerFires _ i => i == id
  | _ => false

/-- Ids mentioned by pending removal timeouts are ids the provider has
already minted — an invariant of every reachable state, assumed of the start
state in the auto-dismiss theorem. -/
def RemovalIdsMinted (s : ToastState) : Prop :=
  ∀ p ∈ s.removals, p.1 ≤ s.nextId

-- ---- Concrete fixtures used by witnesses and counterexamples ----

/-- A rate-limit error as the backend would produce. -/
def err429 : ErrVal := .api { status := 429, message := "Too Many Requests", data := .undefined }

/-- A not-found error as the backend would produce. -/
def err404 : ErrVal := .api { status := 404, message := "Not Found", data := .undefined }

/-- An operation that fails with HTTP 429 on every invocation. -/
def alwaysRateLimited : Nat → Except ErrVal Unit := fun _ => .error err429

/-- A network oracle that answers every request with HTTP 404. -/
def net404 : Nat → Except ErrVal BackendRecipeResponse := fun _ => .error err404

/-- A jitter oracle that always draws 0. -/
def zeroJitter : Nat → ℚ := fun _ => 0

/-- An operation that fails with HTTP 404 on every invocation. -/
def alwaysNotFound : Nat → Except ErrVal Unit := fun _ => .error err404

/-- A file whose MIME type the scan client rejects. -/
def badTypeFile : JsFile := { type := "text/plain", size := 5 }

/-- A PNG one byte over the 10 MB limit. -/
def oversizeFile : JsFile := { type := "image/png", size := 10485761 }

/-- A successful scan response. -/
def okScan : Except ErrVal ScanResponse := .ok { items := [] }

-- ==== Lemmas about the retry loop ====

theorem retryLoop_ok {α : Type} (fn : Nat → Except ErrVal α) (rand : Nat → ℚ)
    (a : Nat) (rest : List Nat) (le : Option ErrVal) (v : α)
    (h : fn a = .ok v) :
    retryLoop fn rand (a :: rest) le = ⟨.ok v, 1, []⟩ := by
  simp [retryLoop, h]

theorem retryLoop_throw {α : Type} (fn : Nat → Except ErrVal α) (rand : Nat → ℚ)
    (a : Nat) (rest : List Nat) (le : Option ErrVal) (e : ErrVal)
    (h : fn a = .error e)
    (hc : (!(isRetryable e) || a == MAX_RETRIES) = true) :
    retryLoop fn rand (a :: rest) le = ⟨.error e, 1, []⟩ := by
  simp [retryLoop, h, hc]

theorem retryLoop_retry {α : Type} (fn : Nat → Except ErrVal α) (rand : Nat → ℚ)
    (a : Nat) (rest : List Nat) (le : Option ErrVal) (e : ErrVal)
    (h : fn a = .error e)
    (hr : isRetryable e = true) (ha : (a == MAX_RETRIES) = false) :
    retryLoop fn rand (a :: rest) le =
      ⟨(retryLoop fn rand rest (some e)).result,
       (retryLoop fn rand rest (some e)).calls + 1,
       ((BASE_DELAY_MS : ℚ) * 2 ^ a + rand a * 500) ::
         (retryLoop fn rand rest (some e)).delays⟩ := by
  simp [retryLoop, h, hr, ha]

theorem retryLoop_calls_pos {α : Type} (fn : Nat → Except ErrVal α)
    (rand : Nat → ℚ) (a : Nat) (rest : List Nat) (le : Option ErrVal) :
    1 ≤ (retryLoop fn rand (a :: rest) le).calls := by
  rcases h : fn a with e | v
  · rcases hc : (!(isRetryable e) || a == MAX_RETRIES) with _ | _
    · have hr : isRetryable e = true := by
        rcases hr' : isRetryable e with _ | _ <;> simp [hr'] at hc ⊢
      have ha : (a == MAX_RETRIES) = false := by
        rcases ha' : (a == MAX_RETRIES) with _ | _ <;> simp [ha', hr] at hc ⊢
      rw [retryLoop_retry fn rand a rest le e h hr ha]
      exact Nat.le_add_left 1 _
    · rw [retryLoop_throw fn rand a rest le e h hc]
  · rw [retryLoop_ok fn rand a rest le v h]

theorem retryLoop_calls_le {α : Type} (fn : Nat → Except ErrVal α)
    (rand : Nat → ℚ) :
    ∀ (l : List Nat) (le : Option ErrVal),
      (retryLoop fn rand l le).calls ≤ l.length := by
  intro l
  induction l with
  | nil => intro le; simp [retryLoop]
  | cons a rest ih =>
    intro le
    rcases h : fn a with e | v
    · rcases hc : (!(isRetryable e) || a == MAX_RETRIES) with _ | _
      · have hr : isRetryable e = true := by
          rcases hr' : isRetryable e with _ | _ <;> simp [hr'] at hc ⊢
        have ha : (a == MAX_RETRIES) = false := by
          rcases ha' : (a == MAX_RETRIES) with _ | _ <;> simp [ha', hr] at hc ⊢
        rw [retryLoop_retry fn rand a rest le e h hr ha]
        have := ih (some e)
        simpa using Nat.add_le_add_right this 1
      · rw [retryLoop_throw fn rand a rest le e h hc]
        simp
    · rw [retryLoop_ok fn rand a rest le v h]
      simp

theorem retryLoop_range'_calls_pos {α : Type} (fn : Nat → Except ErrVal α)
    (rand : Nat → ℚ) (n s : Nat) (le : Option ErrVal) (hn : 1 ≤ n) :
    1 ≤ (retryLoop fn rand (List.range' s n) le).calls := by
  obtain ⟨m, rfl⟩ : ∃ m, n = m + 1 := ⟨n - 1, by omega⟩
  rw [List.range'_succ]
  exact retryLoop_calls_pos fn rand _ _ _

theorem retryLoop_retry_condition {α : Type} (fn : Nat → Except ErrVal α)
    (rand : Nat → ℚ) :
    ∀ (n a : Nat) (le : Option ErrVal), a + n = MAX_RETRIES + 1 →
      ∀ (i : Nat) (e : ErrVal), a ≤ i →
        i - a < (retryLoop fn rand (List.range' a n) le).calls →
        fn i = .error e →
        ((i - a + 1 < (retryLoop fn rand (List.range' a n) le).calls) ↔
          (isRetryable e = true ∧ i < MAX_RETRIES)) ∧
        ((isRetryable e = false ∨ i = MAX_RETRIES) →
          (retryLoop fn rand (List.range' a n) le).result = .error e ∧
          (retryLoop fn rand (List.range' a n) le).calls = i - a + 1) := by
  intro n
  induction n with
  | zero =>
    intro a le hsum i e hai hlt _
    simp [retryLoop] at hlt
  | succ n ih =>
    intro a le hsum i e hai hlt hfi
    rw [List.range'_succ] at hlt ⊢
    rcases h : fn a with e₀ | v
    · rcases hr : isRetryable e₀ with _ | _
      · have hc : (!(isRetryable e₀) || a == MAX_RETRIES) = true := by simp [hr]
        rw [retryLoop_throw fn rand a _ le e₀ h hc] at hlt ⊢
        simp only at hlt ⊢
        have hia : i = a := by omega
        have hee : e = e₀ := by rw [hia, h] at hfi; injection hfi with h'; rw [h']
        refine ⟨?_, fun _ => ⟨by rw [hee], by omega⟩⟩
        constructor
        · intro hcontra; omega
        · rintro ⟨hre, _⟩; rw [hee, hr] at hre; cases hre
      · rcases ha : (a == MAX_RETRIES) with _ | _
        · -- retryable failure below the cap: the loop sleeps and retries
          have hane : a ≠ MAX_RETRIES := by simpa using ha
          have halt : a < MAX_RETRIES := by
            have hM : MAX_RETRIES = 3 := rfl
            rw [hM] at hsum ⊢; omega
          have hn : 1 ≤ n := by
            have hM : MAX_RETRIES = 3 := rfl
            rw [hM] at hsum halt; omega
          rw [retryLoop_retry fn rand a _ le e₀ h hr ha] at hlt ⊢
          simp only at hlt ⊢
          rcases Nat.eq_or_lt_of_le hai with hia | hia
          · -- the failed attempt is a itself and the tail is nonempty
            have hee : e = e₀ := by
              rw [← hia, h] at hfi; injection hfi with h'; rw [h']
            have hpos :
                1 ≤ (retryLoop fn rand (List.range' (a + 1) n) (some e₀)).calls :=
              retryLoop_range'_calls_pos fn rand n (a + 1) (some e₀) hn
            refine ⟨?_, ?_⟩
            · constructor
              · intro _; exact ⟨by rw [hee, hr], by omega⟩
              · intro _; omega
            · rintro (hre | hmax)
              · rw [hee, hr] at hre; cases hre
              · omega
          · -- the failed attempt lies in the tail: recurse
            have hsum' : (a + 1) + n = MAX_RETRIES + 1 := by omega
            have hai' : a + 1 ≤ i := hia
            have hlt' : i - (a + 1) <
                (retryLoop fn rand (List.range' (a + 1) n) (some e₀)).calls := by
              omega
            obtain ⟨hiff, hthrow⟩ :=
              ih (a + 1) (some e₀) hsum' i e hai' hlt' hfi
            refine ⟨?_, ?_⟩
            · constructor
              · intro hlt2; exact hiff.mp (by omega)
              · intro hrhs; have := hiff.mpr hrhs; omega
            · intro hd
              obtain ⟨hres, hcalls⟩ := hthrow hd
              exact ⟨hres, by omega⟩
        · -- retryable failure at the cap is thrown, not retried
          have hc : (!(isRetryable e₀) || a == MAX_RETRIES) = true := by simp [ha]
          rw [retryLoop_throw fn rand a _ le e₀ h hc] at hlt ⊢
          simp only at hlt ⊢
          have hia : i = a := by omega
          have hee : e = e₀ := by rw [hia, h] at hfi; injection hfi with h'; rw [h']
          have hmax : a = MAX_RETRIES := by simpa using ha
          refine ⟨?_, fun _ => ⟨by rw [hee], by omega⟩⟩
          constructor
          · intro hcontra; omega
          · rintro ⟨_, hcontra⟩; omega
    · -- attempt a succeeded, so i = a, contradicting that attempt i failed
      rw [retryLoop_ok fn rand a _ le v h] at hlt ⊢
      simp only at hlt ⊢
      have hia : i = a := by omega
      rw [hia, h] at hfi; cases hfi

theorem retryLoop_first_success {α : Type} (fn : Nat → Except ErrVal α)
    (rand : Nat → ℚ) :
    ∀ (n a : Nat) (le : Option ErrVal), a + n = MAX_RETRIES + 1 →
      ∀ (i : Nat) (v : α), a ≤ i → i ≤ MAX_RETRIES → fn i = .ok v →
        (∀ j, a ≤ j → j < i → ∃ e, fn j = .error e ∧ isRetryable e = true) →
        (retryLoop fn rand (List.range' a n) le).result = .ok v ∧
        (retryLoop fn rand (List.range' a n) le).calls = i - a + 1 := by
  intro n
  induction n with
  | zero =>
    intro a le hsum i v hai hiM _ _
    have hM : MAX_RETRIES = 3 := rfl
    rw [hM] at hsum hiM
    omega
  | succ n ih =>
    intro a le hsum i v hai hiM hok hprev
    rw [List.range'_succ]
    rcases Nat.eq_or_lt_of_le hai with hia | hia
    · rw [retryLoop_ok fn rand a _ le v (by rw [hia]; exact hok)]
      refine ⟨rfl, ?_⟩
      show 1 = i - a + 1
      omega
    · obtain ⟨e₀, he₀, hr₀⟩ := hprev a (Nat.le_refl a) hia
      have hane : (a == MAX_RETRIES) = false := by
        have hM : MAX_RETRIES = 3 := rfl
        have : a ≠ MAX_RETRIES := by rw [hM] at hiM ⊢; omega
        simpa using this
      rw [retryLoop_retry fn rand a _ le e₀ he₀ hr₀ hane]
      simp only
      have hsum' : (a + 1) + n = MAX_RETRIES + 1 := by omega
      obtain ⟨hres, hcalls⟩ :=
        ih (a + 1) (some e₀) hsum' i v hia hiM hok
          (fun j hj hj' => hprev j (by omega) hj')
      exact ⟨hres, by omega⟩

theorem retryLoop_delays {α : Type} (fn : Nat → Except ErrVal α)
    (rand : Nat → ℚ) :
    ∀ (n a : Nat) (le : Option ErrVal), a + n = MAX_RETRIES + 1 →
      ∀ (i : Nat), i + 1 < (retryLoop fn rand (List.range' a n) le).calls →
        (retryLoop fn rand (List.range' a n) le).delays[i]? =
          some ((BASE_DELAY_MS : ℚ) * 2 ^ (a + i) + rand (a + i) * 500) := by
  intro n
  induction n with
  | zero =>
    intro a le hsum i hlt
    simp [retryLoop] at hlt
  | succ n ih =>
    intro a le hsum i hlt
    rw [List.range'_succ] at hlt ⊢
    rcases h : fn a with e₀ | v
    · rcases hr : isRetryable e₀ with _ | _
      · have hc : (!(isRetryable e₀) || a == MAX_RETRIES) = true := by simp [hr]
        rw [retryLoop_throw fn rand a _ le e₀ h hc] at hlt
        simp only at hlt
        omega
      · rcases ha : (a == MAX_RETRIES) with _ | _
        · rw [retryLoop_retry fn rand a _ le e₀ h hr ha] at hlt ⊢
          simp only at hlt ⊢
          rcases i with _ | i'
          · simp
          · have hlt' : i' + 1 <
                (retryLoop fn rand (List.range' (a + 1) n) (some e₀)).calls := by
              omega
            have hsum' : (a + 1) + n = MAX_RETRIES + 1 := by omega
            have := ih (a + 1) (some e₀) hsum' i' hlt'
            rw [List.getElem?_cons_succ, this]
            have harith : a + 1 + i' = a + (i' + 1) := by omega
            rw [harith]
        · have hc : (!(isRetryable e₀) || a == MAX_RETRIES) = true := by simp [ha]
          rw [retryLoop_throw fn rand a _ le e₀ h hc] at hlt
          simp only at hlt
          omega
    · rw [retryLoop_ok fn rand a _ le v h] at hlt
      simp only at hlt
      omega

theorem retryLoop_all_retryable {α : Type} (fn : Nat → Except ErrVal α)
    (rand : Nat → ℚ) :
    ∀ (n a : Nat) (le : Option ErrVal), a + n = MAX_RETRIES + 1 → 1 ≤ n →
      (∀ j, a ≤ j → j ≤ MAX_RETRIES → ∃ e', fn j = .error e' ∧ isRetryable e' = true) →
      ∀ e, fn MAX_RETRIES = .error e →
        (retryLoop fn rand (List.range' a n) le).result = .error e ∧
        (retryLoop fn rand (List.range' a n) le).calls = n := by
  intro n
  induction n with
  | zero => intro a le _ hn; omega
  | succ n ih =>
    intro a le hsum _ hall e he
    have hM : MAX_RETRIES = 3 := rfl
    rw [List.range'_succ]
    rcases Nat.eq_or_lt_of_le (Nat.zero_le n) with hn0 | hn0
    · -- final attempt: a = MAX_RETRIES, the retryable error is thrown
      have haM : a = MAX_RETRIES := by rw [hM] at hsum ⊢; omega
      have he' : fn a = .error e := by rw [haM]; exact he
      have hc : (!(isRetryable e) || a == MAX_RETRIES) = true := by
        simp [haM]
      rw [retryLoop_throw fn rand a _ le e he' hc]
      refine ⟨rfl, ?_⟩
      show 1 = n + 1
      omega
    · -- attempt a fails retryably below the cap: sleep and recurse
      obtain ⟨e₀, h₀, r₀⟩ := hall a (Nat.le_refl a) (by rw [hM] at hsum ⊢; omega)
      have hane : (a == MAX_RETRIES) = false := by
        have : a ≠ MAX_RETRIES := by rw [hM] at hsum ⊢; omega
        simpa using this
      rw [retryLoop_retry fn rand a _ le e₀ h₀ r₀ hane]
      simp only
      obtain ⟨hres, hcalls⟩ :=
        ih (a + 1) (some e₀) (by omega) (by omega)
          (fun j hj hj' => hall j (by omega) hj') e he
      exact ⟨hres, by omega⟩

theorem withRetry_eq_range' {α : Type} (fn : Nat → Except ErrVal α)
    (rand : Nat → ℚ) :
    withRetry fn rand =
      retryLoop fn rand (List.range' 0 (MAX_RETRIES + 1)) none := by
  rw [withRetry, List.range_eq_range']

-- ==== Claim theorems ====

/-- C2: `withRetry` always terminates: it invokes the wrapped operation at
most `MAX_RETRIES + 1 = 4` times; it returns the first successful result (and
has then invoked the operation exactly once per preceding retryable failure);
and when the fourth consecutive attempt also fails with a retryable error it
throws that last error instead of retrying again. -/
theorem withRetry_termination :
    (∀ (α : Type) (fn : Nat → Except ErrVal α) (rand : Nat → ℚ),
        (withRetry fn rand).calls ≤ MAX_RETRIES + 1 ∧ MAX_RETRIES + 1 = 4) ∧
    (∀ (α : Type) (fn : Nat → Except ErrVal α) (rand : Nat → ℚ) (i : Nat) (v : α),
        i ≤ MAX_RETRIES → fn i = .ok v →
        (∀ j, j < i → ∃ e, fn j = .error e ∧ isRetryable e = true) →
        (withRetry fn rand).result = .ok v ∧ (withRetry fn rand).calls = i + 1) ∧
    (∀ (α : Type) (fn : Nat → Except ErrVal α) (rand : Nat → ℚ) (e : ErrVal),
        (∀ j, j ≤ MAX_RETRIES → ∃ e', fn j = .error e' ∧ isRetryable e' = true) →
        fn MAX_RETRIES = .error e →
        (withRetry fn rand).result = .error e ∧
        (withRetry fn rand).calls = MAX_RETRIES + 1) := by
  refine ⟨?_, ?_, ?_⟩
  · intro α fn rand
    refine ⟨?_, rfl⟩
    rw [withRetry_eq_range']
    have h := retryLoop_calls_le fn rand (List.range' 0 (MAX_RETRIES + 1)) none
    simpa using h
  · intro α fn rand i v hiM hok hprev
    rw [withRetry_eq_range']
    have := retryLoop_first_success fn rand (MAX_RETRIES + 1) 0 none
      (by omega) i v (Nat.zero_le i) hiM hok
      (fun j _ hj' => hprev j hj')
    simpa using this
  · intro α fn rand e hall he
    rw [withRetry_eq_range']
    exact retryLoop_all_retryable fn rand (MAX_RETRIES + 1) 0 none
      (by omega) (by omega) (fun j _ hj' => hall j hj') e he

/-- Witness for C2 at a concrete operation: four consecutive 429 failures
exhaust the retry budget and the last error is thrown. -/
theorem withRetry_termination_witness :
    (withRetry alwaysRateLimited zeroJitter).result = .error err429 ∧
    (withRetry alwaysRateLimited zeroJitter).calls = MAX_RETRIES + 1 :=
  withRetry_termination.2.2 Unit alwaysRateLimited zeroJitter err429
    (fun _ _ => ⟨err429, rfl, rfl⟩) rfl

/-- C1 as stated is false on the code: with an operation that fails with
HTTP 429 on every invocation, the fourth (last allowed) attempt fails with a
retryable `ApiError`, yet `withRetry` does not invoke the operation again —
a failed attempt being retried is not equivalent to its error being a 429/503
`ApiError`, because the retry cap also stops retrying. -/
theorem withRetry_retry_iff_cex :
    alwaysRateLimited 3 = .error err429 ∧
    isRetryable err429 = true ∧
    3 < (withRetry alwaysRateLimited zeroJitter).calls ∧
    ¬(3 + 1 < (withRetry alwaysRateLimited zeroJitter).calls) := by
  have h : (withRetry alwaysRateLimited zeroJitter).calls = 4 := by decide
  refine ⟨rfl, rfl, by rw [h]; omega, by rw [h]; omega⟩

/-- C1 (amended): a failed attempt is retried if and only if the thrown error
is an `ApiError` with status 429 or 503 AND the attempt is not the last
allowed one (`attempt < MAX_RETRIES`); a non-retryable error — and likewise a
retryable error on the last allowed attempt — is rethrown immediately, the
operation not being invoked again. -/
theorem withRetry_retry_condition_amended :
    ∀ (α : Type) (fn : Nat → Except ErrVal α) (rand : Nat → ℚ) (i : Nat)
      (e : ErrVal),
      i < (withRetry fn rand).calls → fn i = .error e →
      ((i + 1 < (withRetry fn rand).calls) ↔
        (isRetryable e = true ∧ i < MAX_RETRIES)) ∧
      ((isRetryable e = false ∨ i = MAX_RETRIES) →
        (withRetry fn rand).result = .error e ∧
        (withRetry fn rand).calls = i + 1) := by
  intro α fn rand i e hi hfi
  rw [withRetry_eq_range'] at hi ⊢
  have := retryLoop_retry_condition fn rand (MAX_RETRIES + 1) 0 none
    (by omega) i e (Nat.zero_le i) (by simpa using hi) hfi
  simpa using this

/-- Witness for the amended C1 at a concrete operation: a 404 failure on the
first attempt is rethrown immediately with exactly one invocation. -/
theorem withRetry_retry_condition_witness :
    (withRetry alwaysNotFound zeroJitter).result = .error err404 ∧
    (withRetry alwaysNotFound zeroJitter).calls = 0 + 1 :=
  (withRetry_retry_condition_amended Unit alwaysNotFound zeroJitter 0 err404
    (by decide) rfl).2 (Or.inl rfl)

/-- C3: the delay slept after failed attempt number `attempt` (counting from
0) equals `BASE_DELAY_MS * 2 ^ attempt` milliseconds plus the jitter
`Math.random() * 500`, which lies in `[0, 500)`; the deterministic part
doubles on each successive retry — 1000, 2000, 4000 ms for the three possible
retries. -/
theorem withRetry_backoff_delays :
    ∀ (α : Type) (fn : Nat → Except ErrVal α) (rand : Nat → ℚ),
      (∀ n, 0 ≤ rand n ∧ rand n < 1) →
      ∀ i, i + 1 < (withRetry fn rand).calls →
        0 ≤ rand i * 500 ∧ rand i * 500 < 500 ∧
        (withRetry fn rand).delays[i]? =
          some ((BASE_DELAY_MS : ℚ) * 2 ^ i + rand i * 500) ∧
        (BASE_DELAY_MS : ℚ) * 2 ^ (0 : Nat) = 1000 ∧
        (BASE_DELAY_MS : ℚ) * 2 ^ (1 : Nat) = 2000 ∧
        (BASE_DELAY_MS : ℚ) * 2 ^ (2 : Nat) = 4000 := by
  intro α fn rand hrand i hi
  obtain ⟨h0, h1⟩ := hrand i
  refine ⟨by positivity, ?_, ?_, ?_, ?_, ?_⟩
  · calc rand i * 500 < 1 * 500 := by
          exact mul_lt_mul_of_pos_right h1 (by norm_num)
      _ = 500 := by norm_num
  · rw [withRetry_eq_range'] at hi ⊢
    have := retryLoop_delays fn rand (MAX_RETRIES + 1) 0 none (by omega) i hi
    simpa using this
  · norm_num [BASE_DELAY_MS]
  · norm_num [BASE_DELAY_MS]
  · norm_num [BASE_DELAY_MS]

/-- Witness for C3 at a concrete run: with zero jitter and persistent 429
failures, the first delay is exactly `BASE_DELAY_MS * 2 ^ 0` ms. -/
theorem withRetry_backoff_delays_witness :
    0 ≤ zeroJitter 0 * 500 ∧ zeroJitter 0 * 500 < 500 ∧
    (withRetry alwaysRateLimited zeroJitter).delays[0]? =
      some ((BASE_DELAY_MS : ℚ) * 2 ^ 0 + zeroJitter 0 * 500) ∧
    (BASE_DELAY_MS : ℚ) * 2 ^ (0 : Nat) = 1000 ∧
    (BASE_DELAY_MS : ℚ) * 2 ^ (1 : Nat) = 2000 ∧
    (BASE_DELAY_MS : ℚ) * 2 ^ (2 : Nat) = 4000 :=
  withRetry_backoff_delays Unit alwaysRateLimited zeroJitter
    (fun _ => ⟨le_refl 0, by norm_num [zeroJitter]⟩) 0 (by decide)

/-- C6: for every ingredients list, `getByIngredients` returns the empty
array and performs no HTTP request; its behaviour never depends on its
input. -/
theorem getByIngredients_stub :
    ∀ ingredients : List String,
      (getByIngredients ingredients).result = .ok [] ∧
      (getByIngredients ingredients).requests = 0 ∧
      ∀ other : List String,
        getByIngredients ingredients = getByIngredients other :=
  fun _ => ⟨rfl, rfl, fun _ => rfl⟩

/-- C4 as stated is false on the code: at the concrete input `["apple"]`,
`getByIngredients` issues zero backend requests, so it does not issue any
backend request — through `withRetry` or otherwise. -/
theorem getByIngredients_no_request_cex :
    (getByIngredients ["apple"]).requests = 0 ∧
    ¬(1 ≤ (getByIngredients ["apple"]).requests) :=
  ⟨rfl, by decide⟩

/-- C4 (amended): of the two public operations of the recipes API client,
`generate` issues all of its backend requests through `withRetry` (its
request count equals the invocation count of the operation `withRetry`
wraps, each invocation performing exactly one POST), while
`getByIngredients` is an unimplemented stub that performs no backend
request at all and returns the empty array. -/
theorem recipesApi_requests_via_withRetry :
    (∀ (items : List String)
        (net : Nat → Except ErrVal BackendRecipeResponse) (rand : Nat → ℚ),
        generateRequests items net rand =
          (withRetry (generateAttempt net) rand).calls) ∧
    (∀ ingredients : List String,
        (getByIngredients ingredients).requests = 0 ∧
        (getByIngredients ingredients).result = .ok []) :=
  ⟨fun _ _ _ => rfl, fun _ => ⟨rfl, rfl⟩⟩

/-- C7: if the retried POST to `/api/get-recipes` ultimately fails with an
`ApiError` of status 404, `generate` returns the empty array instead of
throwing; consequently no 404 `ApiError` is ever observable at `generate`'s
public interface. -/
theorem generate_swallows_404 :
    ∀ (items : List String)
      (net : Nat → Except ErrVal BackendRecipeResponse) (rand : Nat → ℚ),
      (∀ a : ApiError,
        (generateRun items net rand).result = .error (.api a) →
        a.status = 404 → generate items net rand = .ok []) ∧
      (∀ a : ApiError,
        generate items net rand = .error (.api a) → a.status ≠ 404) := by
  intro items net rand
  constructor
  · intro a hres h404
    unfold generate
    rw [hres]
    simp [h404]
  · intro a hgen hstat
    unfold generate at hgen
    rcases hres : (generateRun items net rand).result with e | v
    · rw [hres] at hgen
      rcases e with b | s
      · rcases h429 : (b.status == 429) with _ | _
        · rcases h404b : (b.status == 404) with _ | _
          · simp [h429, h404b] at hgen
            rw [← hgen] at hstat
            simp [hstat] at h404b
          · simp [h429, h404b] at hgen
        · simp [h429] at hgen
          rw [← hgen] at hstat
          simp at hstat
      · simp at hgen
    · rw [hres] at hgen
      simp at hgen

/-- Witness for C7 at a concrete run: when every request answers 404, the
retry loop throws the 404 and `generate` returns the empty array. -/
theorem generate_swallows_404_witness :
    generate ["milk"] net404 zeroJitter = .ok [] :=
  (generate_swallows_404 ["milk"] net404 zeroJitter).1
    { status := 404, message := "Not Found", data := .undefined } rfl rfl

/-- C8: `uploadImage` validates the file before any network activity: a MIME
type outside `ALLOWED_TYPES` is rejected with a 422 `ApiError`, and an
accepted type whose size exceeds `MAX_FILE_SIZE = 10 * 1024 * 1024` bytes is
rejected with a 413 `ApiError`; in either case zero upload requests are
issued. -/
theorem uploadImage_validates_before_network :
    MAX_FILE_SIZE = 10 * 1024 * 1024 ∧
    ∀ (file : JsFile) (net : Except ErrVal ScanResponse),
      (ALLOWED_TYPES.contains file.type = false →
        (uploadImage file net).2 = 0 ∧
        ∃ m, (uploadImage file net).1 = .error (.api ⟨422, m, .undefined⟩)) ∧
      (ALLOWED_TYPES.contains file.type = true →
        MAX_FILE_SIZE < file.size →
        (uploadImage file net).2 = 0 ∧
        ∃ m, (uploadImage file net).1 = .error (.api ⟨413, m, .undefined⟩)) := by
  refine ⟨rfl, ?_⟩
  intro file net
  constructor
  · intro htype
    have hval : validateImageFile file = .error
        ⟨422,
         "Invalid file format \"" ++ file.type ++ "\". Accepted: JPEG, PNG, WebP, HEIC.",
         .undefined⟩ := by
      have hmem : file.type ∉ ALLOWED_TYPES := by simpa using htype
      unfold validateImageFile
      simp [hmem]
    constructor
    · show (uploadImage file net).2 = 0
      unfold uploadImage
      rw [hval]
    · refine
        ⟨"Invalid file format \"" ++ file.type ++ "\". Accepted: JPEG, PNG, WebP, HEIC.", ?_⟩
      show (uploadImage file net).1 = _
      unfold uploadImage
      rw [hval]
  · intro htype hsize
    have hval : validateImageFile file = .error
        ⟨413,
         "File is too large (" ++ sizeMBString file.size ++ " MB). Maximum size is 10 MB.",
         .undefined⟩ := by
      have hmem : file.type ∈ ALLOWED_TYPES := by simpa using htype
      unfold validateImageFile
      simp [hmem, hsize]
    constructor
    · show (uploadImage file net).2 = 0
      unfold uploadImage
      rw [hval]
    · refine
        ⟨"File is too large (" ++ sizeMBString file.size ++ " MB). Maximum size is 10 MB.", ?_⟩
      show (uploadImage file net).1 = _
      unfold uploadImage
      rw [hval]

/-- Witness for C8 at concrete files: a text file is rejected with 422 and an
11 MB PNG with 413, in both cases with zero requests issued. -/
theorem uploadImage_validates_witness :
    ((uploadImage badTypeFile okScan).2 = 0 ∧
      ∃ m, (uploadImage badTypeFile okScan).1 = .error (.api ⟨422, m, .undefined⟩)) ∧
    ((uploadImage oversizeFile okScan).2 = 0 ∧
      ∃ m, (uploadImage oversizeFile okScan).1 = .error (.api ⟨413, m, .undefined⟩)) :=
  ⟨(uploadImage_validates_before_network.2 badTypeFile okScan).1 (by decide),
   (uploadImage_validates_before_network.2 oversizeFile okScan).2
     (by decide) (by decide)⟩

-- ==== Lemmas about the toast system ====

/-- Bookkeeping for one live toast `item` with id `id` and auto-dismiss time
`due`: its timer is pending, it is in the list, no removal timeout mentions
it, and its id has been minted. -/
def ToastTracked (id due : Nat) (item : ToastItem) (s : ToastState) : Prop :=
  (id, due) ∈ s.timers ∧ item ∈ s.toasts ∧ (∀ t, (id, t) ∉ s.removals) ∧
    id ≤ s.nextId ∧ item.id = id

theorem toastTracked_addAt (id due : Nat) (item : ToastItem) (s : ToastState)
    (now : Nat) (v : ToastVariant) (msg : String) (dur : Option Nat)
    (h : ToastTracked id due item s) :
    ToastTracked id due item (addAt now v msg dur s) := by
  obtain ⟨ht, hm, hr, hn, hid⟩ := h
  refine ⟨List.mem_cons_of_mem _ ht, ?_, hr, by simp [addAt]; omega, hid⟩
  simp only [addAt]
  exact List.mem_append_left _ hm

theorem toastTracked_dismissAt (id due : Nat) (item : ToastItem)
    (s : ToastState) (now id' : Nat) (hne : id' ≠ id)
    (h : ToastTracked id due item s) :
    ToastTracked id due item (dismissAt now id' s) := by
  obtain ⟨ht, hm, hr, hn, hid⟩ := h
  refine ⟨?_, ?_, ?_, hn, hid⟩
  · simp only [dismissAt]
    refine List.mem_filter.mpr ⟨ht, ?_⟩
    simp
    omega
  · simp only [dismissAt]
    have himg : (if item.id == id' then { item with exiting := true } else item)
        = item := by
      have : (item.id == id') = false := by
        simp [hid]
        omega
      rw [this]
      simp
    rw [← himg]
    exact List.mem_map_of_mem _ hm
  · intro t
    simp only [dismissAt, List.mem_cons]
    rintro (hhead | htail)
    · have h1 : id = id' := congrArg Prod.fst hhead
      exact hne h1.symm
    · exact hr t htail

theorem toastTracked_fireTimerAt (id due : Nat) (item : ToastItem)
    (s : ToastState) (now id' : Nat) (hne : id' ≠ id)
    (h : ToastTracked id due item s) :
    ToastTracked id due item (fireTimerAt now id' s) := by
  unfold fireTimerAt
  split
  · exact toastTracked_dismissAt id due item s now id' hne h
  · exact h

theorem toastTracked_fireRemovalAt (id due : Nat) (item : ToastItem)
    (s : ToastState) (now id' : Nat)
    (h : ToastTracked id due item s) :
    ToastTracked id due item (fireRemovalAt now id' s) := by
  obtain ⟨ht, hm, hr, hn, hid⟩ := h
  unfold fireRemovalAt
  split
  · rename_i hmem
    have hne : id' ≠ id := by
      intro hcontra
      exact hr now (by rw [← hcontra]; exact hmem)
    refine ⟨ht, ?_, ?_, hn, hid⟩
    · simp only
      refine List.mem_filter.mpr ⟨hm, ?_⟩
      simp [hid]
      omega
    · intro t hter
      exact hr t (List.mem_of_mem_erase hter)
  · exact ⟨ht, hm, hr, hn, hid⟩

theorem toastTracked_applyOp (id due : Nat) (item : ToastItem)
    (op : ToastOp) (s : ToastState) (hop : opDismisses id op = false)
    (h : ToastTracked id due item s) :
    ToastTracked id due item (applyOp op s) := by
  cases op with
  | success now msg dur => exact toastTracked_addAt id due item s now .success msg dur h
  | error now msg dur => exact toastTracked_addAt id due item s now .error msg dur h
  | warning now msg dur => exact toastTracked_addAt id due item s now .warning msg dur h
  | info now msg dur => exact toastTracked_addAt id due item s now .info msg dur h
  | dismiss now i =>
    have hne : i ≠ id := by simpa [opDismisses] using hop
    exact toastTracked_dismissAt id due item s now i hne h
  | timerFires now i =>
    have hne : i ≠ id := by simpa [opDismisses] using hop
    exact toastTracked_fireTimerAt id due item s now i hne h
  | removalFires now i =>
    exact toastTracked_fireRemovalAt id due item s now i h

theorem toastTracked_runOps (id due : Nat) (item : ToastItem) :
    ∀ (ops : List ToastOp) (s : ToastState),
      (∀ op ∈ ops, opDismisses id op = false) →
      ToastTracked id due item s →
      ToastTracked id due item (runOps ops s) := by
  intro ops
  induction ops with
  | nil => intro s _ h; exact h
  | cons op rest ih =>
    intro s hops h
    show ToastTracked id due item (runOps rest (applyOp op s))
    exact ih (applyOp op s) (fun o ho => hops o (List.mem_cons_of_mem op ho))
      (toastTracked_applyOp id due item op s (hops op (List.mem_cons_self op rest)) h)

theorem dismissAt_marks_schedules_cancels (now id : Nat) (s : ToastState) :
    (∀ t ∈ s.toasts, t.id = id →
      { t with exiting := true } ∈ (dismissAt now id s).toasts) ∧
    (id, now + EXIT_MS) ∈ (dismissAt now id s).removals ∧
    (∀ t', (id, t') ∉ (dismissAt now id s).timers) := by
  refine ⟨?_, ?_, ?_⟩
  · intro t htm htid
    simp only [dismissAt]
    have himg : (if t.id == id then { t with exiting := true } else t)
        = { t with exiting := true } := by
      simp [htid]
    rw [← himg]
    exact List.mem_map_of_mem _ htm
  · simp only [dismissAt]
    exact List.mem_cons_self _ _
  · intro t' hmem
    simp only [dismissAt] at hmem
    obtain ⟨_, hdec⟩ := List.mem_filter.mp hmem
    simp at hdec

-- ==== C5 ====

/-- C5: a toast created through any of the four `ToastAPI` entry points gets
an auto-dismiss timer for `duration` milliseconds later (`DEFAULT_DURATION =
5000` when no duration is given), and — unless dismissed manually first —
firing that timer dismisses it; dismissal (manual or automatic) marks the
toast as exiting, schedules its removal from the toast list `EXIT_MS = 200`
milliseconds later, and cancels its pending auto-dismiss timer, so that the
dismissed toast's timer can never fire again (it is never dismissed twice by
its own timer). -/
theorem toast_lifecycle :
    DEFAULT_DURATION = 5000 ∧ EXIT_MS = 200 ∧
    (∀ (now : Nat) (msg : String) (dur : Option Nat) (s : ToastState),
      toastSuccess now msg dur s = addAt now .success msg dur s ∧
      toastError now msg dur s = addAt now .error msg dur s ∧
      toastWarning now msg dur s = addAt now .warning msg dur s ∧
      toastInfo now msg dur s = addAt now .info msg dur s) ∧
    (∀ (now : Nat) (v : ToastVariant) (msg : String) (dur : Option Nat)
        (s : ToastState),
      (s.nextId + 1, now + dur.getD DEFAULT_DURATION) ∈
        (addAt now v msg dur s).timers) ∧
    (∀ (s : ToastState) (ops : List ToastOp) (now : Nat) (v : ToastVariant)
        (msg : String) (dur : Option Nat),
      RemovalIdsMinted s →
      (∀ op ∈ ops, opDismisses (s.nextId + 1) op = false) →
      (∃ t ∈ (fireTimerAt (now + dur.getD DEFAULT_DURATION) (s.nextId + 1)
          (runOps ops (addAt now v msg dur s))).toasts,
        t.id = s.nextId + 1 ∧ t.exiting = true) ∧
      (s.nextId + 1, now + dur.getD DEFAULT_DURATION + EXIT_MS) ∈
        (fireTimerAt (now + dur.getD DEFAULT_DURATION) (s.nextId + 1)
          (runOps ops (addAt now v msg dur s))).removals ∧
      (∀ t', (s.nextId + 1, t') ∉
        (fireTimerAt (now + dur.getD DEFAULT_DURATION) (s.nextId + 1)
          (runOps ops (addAt now v msg dur s))).timers)) ∧
    (∀ (now id : Nat) (s : ToastState),
      (∀ t ∈ s.toasts, t.id = id →
        { t with exiting := true } ∈ (dismissAt now id s).toasts) ∧
      (id, now + EXIT_MS) ∈ (dismissAt now id s).removals ∧
      (∀ t', (id, t') ∉ (dismissAt now id s).timers)) ∧
    (∀ (now id : Nat) (s : ToastState), (id, now) ∈ s.removals →
      ∀ t ∈ (fireRemovalAt now id s).toasts, t.id ≠ id) ∧
    (∀ (now id : Nat) (s : ToastState) (t' : Nat),
      fireTimerAt t' id (dismissAt now id s) = dismissAt now id s) := by
  refine ⟨rfl, rfl, fun _ _ _ _ => ⟨rfl, rfl, rfl, rfl⟩, ?_, ?_, ?_, ?_, ?_⟩
  · intro now v msg dur s
    exact List.mem_cons_self _ _
  · intro s ops now v msg dur hminted hops
    have hstart : ToastTracked (s.nextId + 1) (now + dur.getD DEFAULT_DURATION)
        ⟨s.nextId + 1, v, msg, dur.getD DEFAULT_DURATION, false⟩
        (addAt now v msg dur s) := by
      refine ⟨List.mem_cons_self _ _, ?_, ?_, Nat.le_refl _, rfl⟩
      · simp only [addAt]
        exact List.mem_append_right _ (List.mem_singleton.mpr rfl)
      · intro t hmem
        have h2 : s.nextId + 1 ≤ s.nextId := hminted _ hmem
        omega
    have hrun := toastTracked_runOps (s.nextId + 1)
      (now + dur.getD DEFAULT_DURATION)
      ⟨s.nextId + 1, v, msg, dur.getD DEFAULT_DURATION, false⟩ ops
      (addAt now v msg dur s) hops hstart
    obtain ⟨ht, hm, hr, hn, hid⟩ := hrun
    have hfire : fireTimerAt (now + dur.getD DEFAULT_DURATION) (s.nextId + 1)
        (runOps ops (addAt now v msg dur s)) =
        dismissAt (now + dur.getD DEFAULT_DURATION) (s.nextId + 1)
          (runOps ops (addAt now v msg dur s)) := by
      unfold fireTimerAt
      rw [if_pos ht]
    rw [hfire]
    obtain ⟨hmark, hsched, hcancel⟩ :=
      dismissAt_marks_schedules_cancels (now + dur.getD DEFAULT_DURATION)
        (s.nextId + 1) (runOps ops (addAt now v msg dur s))
    refine ⟨⟨_, hmark _ hm hid, rfl, rfl⟩, hsched, hcancel⟩
  · intro now id s
    exact dismissAt_marks_schedules_cancels now id s
  · intro now id s hmem t htoast
    unfold fireRemovalAt at htoast
    rw [if_pos hmem] at htoast
    obtain ⟨_, hdec⟩ := List.mem_filter.mp htoast
    simpa using hdec
  · intro now id s t'
    unfold fireTimerAt
    rw [if_neg]
    intro hmem
    exact (dismissAt_marks_schedules_cancels now id s).2.2 t' hmem

/-- Witness for C5 at a concrete run: a success toast created at time 0 in
the empty provider with the default duration is dismissed when its timer
fires at 5000 ms, its removal is scheduled for 5200 ms, and its timer is
cancelled. -/
theorem toast_lifecycle_witness :
    (∃ t ∈ (fireTimerAt 5000 1
        (runOps [] (addAt 0 .success "Saved" none toastInit))).toasts,
      t.id = 1 ∧ t.exiting = true) ∧
    (1, 5200) ∈ (fireTimerAt 5000 1
        (runOps [] (addAt 0 .success "Saved" none toastInit))).removals ∧
    (1, 5000) ∉ (fireTimerAt 5000 1
        (runOps [] (addAt 0 .success "Saved" none toastInit))).timers := by
  have h := toast_lifecycle.2.2.2.2.1 toastInit [] 0 .success "Saved" none
    (by intro p hp; simp [toastInit] at hp) (by intro op hop; simp at hop)
  exact ⟨h.1, h.2.1, h.2.2 5000⟩

end FridgeTrack
